import Mathlib

/-!
Verification development for the in-browser sandbox lifecycle orchestrator.

The definitions below are a shallow embedding of the repository's
TypeScript sources:
  * `WC`      — src/src/utils/webcontainer.ts (boot manager, preflight,
                dev-server workflow, static root resolution, exit handling)
  * `PD`      — src/src/utils/projectDetection.ts (project classification)
  * `Railway` — the framework-aware orchestrator variant concatenated in
                src/supabase/functions/railway-deploy/index.ts
                (readPackageJson, findDevScript, startDevServer)
  * `Part1`   — the orchestrator variant in src/unnamed/part_001
                (execution timer, teardownWebContainer)

Asynchronous code is modelled by explicit state passing; callback
invocations are recorded as `Event` values in the order the code emits
them.  ANSI colour escape sequences that the code embeds in output
strings are omitted from the recorded output text; the human-readable
content is kept.  String prefix/suffix/substring tests are modelled over
the character lists of the strings so that they compute in the kernel.
-/

/-- `ContainerStatus` from webcontainer.ts. -/
inductive ContainerStatus where
  | idle
  | booting
  | mounting
  | installing
  | running
  | ready
  | error
deriving DecidableEq, Repr

/-- A callback invocation or process spawn performed by the orchestrator,
recorded in program order.  `spawn cmd args` models `container.spawn`. -/
inductive Event where
  | onStatusChange (s : ContainerStatus)
  | onOutput (s : String)
  | onServerReady (url : String)
  | onError (msg : String)
  | spawn (cmd : String) (args : List String)
deriving DecidableEq, Repr

/-- `value.startsWith(p)` over character lists. -/
def strHasPrefix (s p : String) : Bool := p.data.isPrefixOf s.data

/-- Auxiliary substring search over character lists. -/
def listHasSub (l p : List Char) : Bool :=
  p.isPrefixOf l ||
    match l with
    | [] => false
    | _ :: t => listHasSub t p

/-- `value.includes(p)` over character lists. -/
def strContains (s p : String) : Bool := listHasSub s.data p.data

/-- `value.endsWith(p)` over character lists. -/
def strHasSuffix (s p : String) : Bool := p.data.isSuffixOf s.data

/-- JavaScript truthiness of an optional string property: `undefined`
and the empty string are falsy. -/
def truthy : Option String → Bool
  | none => false
  | some s => !s.isEmpty

namespace WC

/-- The module-level mutable state of webcontainer.ts:
`webcontainerInstance` and `bootPromise`.  Handles and pending promises
are identified by natural numbers.  `bootAttempts` counts how many times
a fresh underlying boot attempt (`attemptBoot()` driving
`WebContainer.boot`) has been started; it is a ghost counter, not a
program variable. -/
structure BootState where
  webcontainerInstance : Option Nat
  bootPromise : Option Nat
  bootAttempts : Nat
deriving DecidableEq, Repr

/-- Initial module state: both variables `null`. -/
def initialBootState : BootState := ⟨none, none, 0⟩

/-- What a call to `bootWebContainer()` hands back to its caller:
either the already stored instance, or a (possibly in-flight) boot
promise identified by number. -/
inductive BootResult where
  | fromInstance (h : Nat)
  | fromPromise (p : Nat)
deriving DecidableEq, Repr

/-- One call to `bootWebContainer()` (webcontainer.ts lines 61–113),
up to the point where the caller has its return value:
if an instance exists it is returned; else if a boot promise exists it
is returned; otherwise a fresh `attemptBoot()` promise is created,
stored in `bootPromise`, and returned.  The ghost counter `bootAttempts`
is used as the fresh promise id. -/
def bootWebContainer (st : BootState) : BootState × BootResult :=
  match st.webcontainerInstance with
  | some h => (st, .fromInstance h)
  | none =>
    match st.bootPromise with
    | some p => (st, .fromPromise p)
    | none =>
      ({ st with bootPromise := some st.bootAttempts,
                 bootAttempts := st.bootAttempts + 1 },
       .fromPromise st.bootAttempts)

/-- `n` consecutive calls to `bootWebContainer()` with no intervening
resolution of the in-flight boot, collecting each caller's result. -/
def bootCalls : Nat → BootState → BootState × List BootResult
  | 0, st => (st, [])
  | n + 1, st =>
    let c := bootWebContainer st
    let rest := bootCalls n c.1
    (rest.1, c.2 :: rest.2)

/-- Successful resolution of the in-flight boot: the awaited
`bootPromise` fulfils with handle `h` and the continuation stores
`webcontainerInstance = h`.  (`bootPromise` is left set, as in the
code's success path.) -/
def resolveBootSuccess (st : BootState) (h : Nat) : BootState :=
  { st with webcontainerInstance := some h }

/-- `teardownWebContainer()` (webcontainer.ts lines 840–847): only when
an instance exists are the instance torn down and both variables
cleared; otherwise the state is untouched. -/
def teardownWebContainer (st : BootState) : BootState :=
  match st.webcontainerInstance with
  | some _ => { st with webcontainerInstance := none, bootPromise := none }
  | none => st

theorem bootCalls_inflight (n : Nat) (st : BootState) (p : Nat)
    (hi : st.webcontainerInstance = none) (hp : st.bootPromise = some p) :
    bootCalls n st = (st, List.replicate n (BootResult.fromPromise p)) := by
  induction n with
  | zero => simp [bootCalls]
  | succ n ih =>
    simp only [bootCalls, bootWebContainer, hi, hp, ih, List.replicate]

theorem bootCalls_resolved (n : Nat) (st : BootState) (h : Nat)
    (hi : st.webcontainerInstance = some h) :
    bootCalls n st = (st, List.replicate n (BootResult.fromInstance h)) := by
  induction n with
  | zero => simp [bootCalls]
  | succ n ih =>
    simp only [bootCalls, bootWebContainer, hi, ih, List.replicate]

/-- C1: every sequence of `bootWebContainer()` calls issued before the
first one resolves starts exactly one underlying boot attempt, and every
caller receives the same pending promise; after the boot succeeds, every
further caller receives the stored instance and no new attempt starts. -/
theorem bootWebContainer_singleflight (n m h : Nat) :
    (bootCalls (n + 1) initialBootState).1.bootAttempts = 1 ∧
    (bootCalls (n + 1) initialBootState).2 =
      List.replicate (n + 1) (BootResult.fromPromise 0) ∧
    (bootCalls m (resolveBootSuccess (bootCalls (n + 1) initialBootState).1 h)).1.bootAttempts = 1 ∧
    (bootCalls m (resolveBootSuccess (bootCalls (n + 1) initialBootState).1 h)).2 =
      List.replicate m (BootResult.fromInstance h) := by
  have step1 :
      bootCalls (n + 1) initialBootState =
        (⟨none, some 0, 1⟩, List.replicate (n + 1) (BootResult.fromPromise 0)) := by
    have h1 : bootWebContainer initialBootState =
        (⟨none, some 0, 1⟩, BootResult.fromPromise 0) := by rfl
    simp only [bootCalls, h1]
    rw [bootCalls_inflight n ⟨none, some 0, 1⟩ 0 rfl rfl]
    simp [List.replicate]
  have step2 :
      bootCalls m (resolveBootSuccess (⟨none, some 0, 1⟩ : BootState) h) =
        (resolveBootSuccess (⟨none, some 0, 1⟩ : BootState) h,
          List.replicate m (BootResult.fromInstance h)) := by
    exact bootCalls_resolved m _ h rfl
  refine ⟨?_, ?_, ?_, ?_⟩
  · rw [step1]
  · rw [step1]
  · rw [step1]; rw [step2]; rfl
  · rw [step1]; rw [step2]

/-- C9: calling `teardownWebContainer()` while a boot is in flight
(boot promise set, no instance stored) changes nothing — the pending
promise is neither cancelled nor cleared — and when the in-flight boot
later resolves it still stores a live instance. -/
theorem teardown_during_inflight_boot (st : BootState) (p h : Nat)
    (hi : st.webcontainerInstance = none) (hp : st.bootPromise = some p) :
    teardownWebContainer st = st ∧
    (teardownWebContainer st).bootPromise = some p ∧
    (resolveBootSuccess (teardownWebContainer st) h).webcontainerInstance = some h := by
  have ht : teardownWebContainer st = st := by
    simp only [teardownWebContainer, hi]
  refine ⟨ht, ?_, ?_⟩
  · rw [ht, hp]
  · rw [ht]; rfl

/-- Witness for `teardown_during_inflight_boot` at the state reached by
one unresolved boot call from the initial state. -/
theorem teardown_during_inflight_boot_witness :
    teardownWebContainer ⟨none, some 0, 1⟩ = ⟨none, some 0, 1⟩ ∧
    (teardownWebContainer ⟨none, some 0, 1⟩).bootPromise = some 0 ∧
    (resolveBootSuccess (teardownWebContainer ⟨none, some 0, 1⟩) 7).webcontainerInstance = some 7 :=
  teardown_during_inflight_boot ⟨none, some 0, 1⟩ 0 7 rfl rfl

/-- The local latch state of one `startDevServer` run
(webcontainer.ts lines 327–337): `serverReadyFired`, whether the 60 s
`serverReadyTimeout` is still pending, and the callback events emitted
so far. -/
structure ReadyState where
  serverReadyFired : Bool
  serverReadyTimeout : Bool
  events : List Event
deriving DecidableEq, Repr

/-- Latch state at the moment the run process has been spawned and the
60 s hint timer armed: no signal has fired yet. -/
def initialReadyState : ReadyState := ⟨false, true, []⟩

/-- The `✓ Server ready` banner: the port suffix is appended only for a
truthy (present, non-zero) port, as in the template literal. -/
def readyBanner (port : Option Nat) : String :=
  "✓ Server ready" ++
    match port with
    | some p => if p ≠ 0 then " on port " ++ toString p else ""
    | none => ""

/-- `handleServerReady(url, port)` (webcontainer.ts lines 330–337):
if the latch is set, return immediately; otherwise set the latch, clear
the pending hint timer, and emit output / onServerReady / status
`ready`. -/
def handleServerReady (st : ReadyState) (url : String) (port : Option Nat) :
    ReadyState :=
  if st.serverReadyFired then st
  else
    { serverReadyFired := true,
      serverReadyTimeout := false,
      events := st.events ++
        [Event.onOutput (readyBanner port),
         Event.onServerReady url,
         Event.onStatusChange .ready] }

/-- A candidate readiness signal reaching the latch: the authoritative
`server-ready` event (webcontainer.ts line 442), the delayed textual
pattern match from the output stream (lines 416–433), or the delayed
`port` open event of the framework-aware variant
(railway-deploy/index.ts lines 820–831). -/
inductive ReadySignal where
  | serverReadyEvent (port : Nat) (url : String)
  | outputPatternMatch (port : Nat)
  | portEvent (port : Nat) (url : String)
deriving DecidableEq, Repr

/-- The URL a signal would report if it were the first to fire:
the event's own URL, or `http://localhost:PORT` synthesized by the
textual fallback. -/
def signalUrl : ReadySignal → String
  | .serverReadyEvent _ url => url
  | .outputPatternMatch port => "http://localhost:" ++ toString port
  | .portEvent _ url => url

/-- The port a signal carries. -/
def signalPort : ReadySignal → Nat
  | .serverReadyEvent port _ => port
  | .outputPatternMatch port => port
  | .portEvent port _ => port

/-- Delivery of one candidate signal to the latch.  The authoritative
event calls `handleServerReady` directly; the two delayed paths first
re-check the latch when their grace timer fires, then call it. -/
def processSignal (st : ReadyState) (sig : ReadySignal) : ReadyState :=
  match sig with
  | .serverReadyEvent port url => handleServerReady st url (some port)
  | .outputPatternMatch port =>
    if st.serverReadyFired then st
    else handleServerReady st ("http://localhost:" ++ toString port) (some port)
  | .portEvent port url =>
    if st.serverReadyFired then st
    else handleServerReady st url (some port)

theorem processSignal_of_fired (st : ReadyState) (sig : ReadySignal)
    (h : st.serverReadyFired = true) : processSignal st sig = st := by
  cases sig <;> simp [processSignal, handleServerReady, h]

theorem foldl_processSignal_of_fired (sigs : List ReadySignal) (st : ReadyState)
    (h : st.serverReadyFired = true) :
    List.foldl processSignal st sigs = st := by
  induction sigs with
  | nil => rfl
  | cons s t ih => rw [List.foldl_cons, processSignal_of_fired st s h]; exact ih

/-- Whether an event is an `onServerReady` callback. -/
def isOnServerReadyEvent : Event → Bool
  | .onServerReady _ => true
  | _ => false

/-- Whether an event is a status transition to `ready`. -/
def isReadyStatusEvent : Event → Bool
  | .onStatusChange .ready => true
  | _ => false

/-- C2: within one run, the readiness latch fires at most once — after
the first candidate signal sets it, delivering any further sequence of
candidate signals (authoritative events, port events, or textual
matches) leaves the state untouched, and over the whole run
`onServerReady` is called exactly once with the first signal's URL and
status `ready` is emitted exactly once. -/
theorem readiness_signal_fires_once (sig : ReadySignal) (sigs : List ReadySignal) :
    List.foldl processSignal (processSignal initialReadyState sig) sigs
      = processSignal initialReadyState sig ∧
    (processSignal initialReadyState sig).serverReadyFired = true ∧
    (List.foldl processSignal (processSignal initialReadyState sig) sigs).events.filter
        isOnServerReadyEvent = [Event.onServerReady (signalUrl sig)] ∧
    (List.foldl processSignal (processSignal initialReadyState sig) sigs).events.filter
        isReadyStatusEvent = [Event.onStatusChange .ready] := by
  have hfired : (processSignal initialReadyState sig).serverReadyFired = true := by
    cases sig <;> rfl
  have hfold := foldl_processSignal_of_fired sigs _ hfired
  refine ⟨hfold, hfired, ?_, ?_⟩
  · rw [hfold]
    cases sig <;>
      simp [processSignal, handleServerReady, initialReadyState, signalUrl,
        isOnServerReadyEvent, isReadyStatusEvent]
  · rw [hfold]
    cases sig <;>
      simp [processSignal, handleServerReady, initialReadyState, signalUrl,
        isOnServerReadyEvent, isReadyStatusEvent]

/-- The `serverProcess.exit.then` handler of `startDevServer`
(webcontainer.ts lines 456–462): clear the pending hint timer, and only
when the exit code is non-zero and no readiness signal has fired, report
a fatal run failure. -/
def devServerExitHandler (st : ReadyState) (code : Nat) : ReadyState × List Event :=
  let cleared : ReadyState := { st with serverReadyTimeout := false }
  if code != 0 && !st.serverReadyFired then
    (cleared,
      [Event.onError ("Dev server exited with code " ++ toString code ++
         ". Check terminal for details."),
       Event.onStatusChange .error])
  else (cleared, [])

/-- C7: a non-zero run-process exit is reported as fatal (error callback
plus status `error`) exactly when it happens before any readiness
signal; with the latch set, or a zero exit code, the handler emits no
error callback and no status change at all. -/
theorem run_process_exit_fatal_only_before_ready (st : ReadyState) (code : Nat) :
    (∀ s, Event.onStatusChange s ∈ (devServerExitHandler st code).2 ↔
        s = ContainerStatus.error ∧ code ≠ 0 ∧ st.serverReadyFired = false) ∧
    (∀ m, Event.onError m ∈ (devServerExitHandler st code).2 ↔
        m = "Dev server exited with code " ++ toString code ++
          ". Check terminal for details." ∧ code ≠ 0 ∧ st.serverReadyFired = false) ∧
    ((st.serverReadyFired = true ∨ code = 0) → (devServerExitHandler st code).2 = []) := by
  by_cases hc : code = 0
  · subst hc
    simp [devServerExitHandler]
  · cases hf : st.serverReadyFired <;>
      simp [devServerExitHandler, hc, hf, List.mem_singleton, and_comm]

/-- A JSON value standing in a dependency section: a version-specifier
string, or any non-string value (which the preflight skips). -/
inductive JsonVal where
  | str (s : String)
  | nonString
deriving DecidableEq, Repr

/-- The parsed `package.json` as the code accesses it: the three
dependency sections the preflight walks, one further section it never
touches, and the `scripts` mapping.  Absent properties are `none`. -/
structure Pkg where
  dependencies : Option (List (String × JsonVal))
  devDependencies : Option (List (String × JsonVal))
  optionalDependencies : Option (List (String × JsonVal))
  peerDependencies : Option (List (String × JsonVal))
  scripts : Option (List (String × String))
deriving DecidableEq, Repr

/-- The per-value test of `hasGitSshDependencies` (webcontainer.ts
lines 205–210): only string values are examined, for the two prefixes
and the `git@` substring. -/
def isGitSshSpec : JsonVal → Bool
  | .str s =>
      strHasPrefix s "git+ssh://" || strHasPrefix s "ssh://" || strContains s "git@"
  | .nonString => false

/-- Whether one (optional) dependency section holds an offending
specifier; a missing section is skipped. -/
def sectionHasGitSsh : Option (List (String × JsonVal)) → Bool
  | none => false
  | some deps => deps.any fun kv => isGitSshSpec kv.2

/-- `hasGitSshDependencies(pkg)` (webcontainer.ts lines 200–213):
walks `dependencies`, `devDependencies` and `optionalDependencies`
only. -/
def hasGitSshDependencies (pkg : Pkg) : Bool :=
  sectionHasGitSsh pkg.dependencies ||
    sectionHasGitSsh pkg.devDependencies ||
    sectionHasGitSsh pkg.optionalDependencies

/-- C10: `hasGitSshDependencies` returns true iff some string-valued
specifier in `dependencies`, `devDependencies` or
`optionalDependencies` starts with `git+ssh://` or `ssh://` or contains
`git@` anywhere; other sections are never examined (changing
`peerDependencies` never changes the result), and a specifier that
merely embeds `git@` in a longer https URL is rejected too. -/
theorem hasGitSshDependencies_characterization :
    (∀ pkg : Pkg,
      hasGitSshDependencies pkg = true ↔
        ∃ sec ∈ [pkg.dependencies, pkg.devDependencies, pkg.optionalDependencies],
          ∃ l, sec = some l ∧ ∃ kv ∈ l, ∃ s, kv.2 = JsonVal.str s ∧
            (strHasPrefix s "git+ssh://" = true ∨ strHasPrefix s "ssh://" = true ∨
              strContains s "git@" = true)) ∧
    (∀ pkg : Pkg, ∀ x,
      hasGitSshDependencies { pkg with peerDependencies := x } =
        hasGitSshDependencies pkg) ∧
    hasGitSshDependencies
      ⟨some [("lib", .str "https://git@example.com/lib/archive.tar.gz")],
        none, none, none, none⟩ = true := by
  refine ⟨?_, ?_, ?_⟩
  · intro pkg
    have hsec : ∀ sec : Option (List (String × JsonVal)),
        sectionHasGitSsh sec = true ↔
          ∃ l, sec = some l ∧ ∃ kv ∈ l, ∃ s, kv.2 = JsonVal.str s ∧
            (strHasPrefix s "git+ssh://" = true ∨ strHasPrefix s "ssh://" = true ∨
              strContains s "git@" = true) := by
      intro sec
      cases sec with
      | none => simp [sectionHasGitSsh]
      | some l =>
        simp only [sectionHasGitSsh, List.any_eq_true, Option.some.injEq]
        constructor
        · rintro ⟨kv, hmem, hspec⟩
          refine ⟨l, rfl, kv, hmem, ?_⟩
          cases hv : kv.2 with
          | str s =>
            rw [hv] at hspec
            simp only [isGitSshSpec, Bool.or_eq_true] at hspec
            exact ⟨s, rfl, by tauto⟩
          | nonString => rw [hv] at hspec; exact absurd hspec (by simp [isGitSshSpec])
        · rintro ⟨l', hl', kv, hmem, s, hv, hcase⟩
          cases hl'
          refine ⟨kv, hmem, ?_⟩
          rw [hv]
          simp only [isGitSshSpec, Bool.or_eq_true]
          tauto
    simp only [hasGitSshDependencies, Bool.or_eq_true, hsec]
    constructor
    · rintro ((h | h) | h)
      · exact ⟨pkg.dependencies, by simp, h⟩
      · exact ⟨pkg.devDependencies, by simp, h⟩
      · exact ⟨pkg.optionalDependencies, by simp, h⟩
    · rintro ⟨sec, hmem, hrest⟩
      simp only [List.mem_cons, List.not_mem_nil, or_false] at hmem
      rcases hmem with h | h | h
      · exact Or.inl (Or.inl (h ▸ hrest))
      · exact Or.inl (Or.inr (h ▸ hrest))
      · exact Or.inr (h ▸ hrest)
  · intro pkg x
    rfl
  · decide

/-- Outcome of the timed dependency install: the process exited with a
code, or `runCommandWithTimeout` killed it and rejected. -/
inductive InstallOutcome where
  | exited (code : Nat)
  | timedOut
deriving DecidableEq, Repr

/-- `findDevScript` (webcontainer.ts lines 287–319) as a function of the
parsed `package.json`: first of `dev`, `start`, `serve`, `develop`,
`watch` present (truthy) in `scripts`, else `null`; `null` when the
manifest could not be read or parsed. -/
def findDevScript (pkg : Option Pkg) : Option String :=
  match pkg with
  | none => none
  | some p =>
    ["dev", "start", "serve", "develop", "watch"].find?
      fun n => truthy ((p.scripts.getD []).lookup n)

/-- The error message of the git+ssh preflight. -/
def gitSshErrorMsg : String :=
  "This project uses git+ssh dependencies (e.g. git@... or ssh://...). Those can't be installed in the in-browser container."

/-- The synchronous skeleton of `startDevServer` (webcontainer.ts lines
321–393), as the list of spawns and callbacks it performs in order,
parameterised by the parsed manifest, the presence of
`package-lock.json`, and the install outcome.  The trace ends where the
code goes asynchronous (the run process has been spawned); the
readiness machinery after that point is modelled by `processSignal` and
`devServerExitHandler`. -/
def startDevServer (pkg : Option Pkg) (hasPackageLock : Bool)
    (install : InstallOutcome) : List Event :=
  Event.spawn "cat" ["package.json"] ::
  if (match pkg with | some p => hasGitSshDependencies p | none => false) then
    [Event.onStatusChange .error,
     Event.onError gitSshErrorMsg,
     Event.onOutput "✗ Unsupported dependency source detected (git+ssh)."]
  else
    Event.onStatusChange .installing ::
    Event.spawn "test" ["-f", "package-lock.json"] ::
    Event.onOutput ("➜ Running npm " ++ (if hasPackageLock then "ci" else "install") ++ "...") ::
    Event.spawn "npm" ((if hasPackageLock then ["ci"] else ["install"]) ++ ["--no-audit", "--no-fund"]) ::
    match install with
    | .timedOut =>
      [Event.onError "Dependency installation timed out after 300s",
       Event.onStatusChange .error]
    | .exited code =>
      if code != 0 then
        [Event.onError ("Dependency install failed (exit code " ++ toString code ++ "). Check terminal for details."),
         Event.onStatusChange .error]
      else
        Event.onOutput "✓ Dependencies installed successfully!" ::
        Event.spawn "cat" ["package.json"] ::
        match findDevScript pkg with
        | none =>
          [Event.onError "No dev/start script found in package.json. The project needs a 'dev', 'start', or 'serve' script.",
           Event.onStatusChange .error]
        | some script =>
          [Event.onStatusChange .running,
           Event.onOutput ("➜ Running npm run " ++ script ++ "..."),
           Event.spawn "npm" ["run", script]]

/-- C4: whenever the parsed manifest contains an SSH-style dependency
specifier, `startDevServer` stops in the preflight: no `npm` process of
any kind is spawned, status is set to `error`, and the error callback
receives the descriptive unsupported-dependency-source message. -/
theorem git_ssh_preflight_blocks_install (pkg : Pkg) (hasPackageLock : Bool)
    (install : InstallOutcome) (h : hasGitSshDependencies pkg = true) :
    startDevServer (some pkg) hasPackageLock install =
      [Event.spawn "cat" ["package.json"],
       Event.onStatusChange .error,
       Event.onError gitSshErrorMsg,
       Event.onOutput "✗ Unsupported dependency source detected (git+ssh)."] ∧
    (∀ args, Event.spawn "npm" args ∉ startDevServer (some pkg) hasPackageLock install) ∧
    Event.onStatusChange .error ∈ startDevServer (some pkg) hasPackageLock install ∧
    Event.onError gitSshErrorMsg ∈ startDevServer (some pkg) hasPackageLock install := by
  have htr : startDevServer (some pkg) hasPackageLock install =
      [Event.spawn "cat" ["package.json"],
       Event.onStatusChange .error,
       Event.onError gitSshErrorMsg,
       Event.onOutput "✗ Unsupported dependency source detected (git+ssh)."] := by
    simp only [startDevServer, h, if_true]
  refine ⟨htr, ?_, ?_, ?_⟩
  · intro args
    rw [htr]
    simp
  · rw [htr]; simp
  · rw [htr]; simp

/-- Witness for `git_ssh_preflight_blocks_install` on the manifest with
the single dependency `git+ssh://example/repo#1.0`. -/
theorem git_ssh_preflight_blocks_install_witness :
    hasGitSshDependencies
        ⟨some [("repo", .str "git+ssh://example/repo#1.0")], none, none, none,
          some [("dev", "vite")]⟩ = true ∧
    (∀ args, Event.spawn "npm" args ∉
      startDevServer
        (some ⟨some [("repo", .str "git+ssh://example/repo#1.0")], none, none, none,
          some [("dev", "vite")]⟩) false (.exited 0)) ∧
    Event.onError gitSshErrorMsg ∈
      startDevServer
        (some ⟨some [("repo", .str "git+ssh://example/repo#1.0")], none, none, none,
          some [("dev", "vite")]⟩) false (.exited 0) :=
  ⟨by decide,
   (git_ssh_preflight_blocks_install _ false (.exited 0) (by decide)).2.1,
   (git_ssh_preflight_blocks_install _ false (.exited 0) (by decide)).2.2.2⟩

/-- Witness for `run_process_exit_fatal_only_before_ready`: a non-zero
exit after the readiness latch is set produces no callback at all. -/
theorem run_process_exit_after_ready_witness :
    (devServerExitHandler ⟨true, true, []⟩ 1).2 = [] :=
  (run_process_exit_fatal_only_before_ready ⟨true, true, []⟩ 1).2.2 (Or.inl rfl)

/-- The container filesystem as the directory-probe commands observe it:
`test -d DIR` and `test -f FILE` exit codes. -/
structure ContainerFS where
  dirExists : String → Bool
  fileExists : String → Bool

/-- The fixed candidate order of `findStaticRoot` (webcontainer.ts
line 474). -/
def staticRootCandidates : List String :=
  ["public", "dist", "build", "docs", "www", "static", "."]

/-- One probe of the `findStaticRoot` loop: the current directory is
checked for `index.html` directly; any other candidate must exist as a
directory and contain `DIR/index.html`. -/
def candidateHasIndex (fs : ContainerFS) (dir : String) : Bool :=
  if dir = "." then fs.fileExists "index.html"
  else fs.dirExists dir && fs.fileExists (dir ++ "/index.html")

/-- `findStaticRoot` (webcontainer.ts lines 473–501): the first
candidate containing an index document, falling back to `"."`. -/
def findStaticRoot (fs : ContainerFS) : String :=
  (staticRootCandidates.find? (candidateHasIndex fs)).getD "."

/-- The discovery order of `serveStaticSite` (webcontainer.ts
line 654). -/
def possibleDirs : List String :=
  [".", "public", "dist", "build", "static", "assets", "www", "docs"]

/-- The existing candidate directories in discovery order
(webcontainer.ts lines 655–666). -/
def existingDirs (fs : ContainerFS) : List String :=
  possibleDirs.filter fs.dirExists

/-- JavaScript `[...new Set(xs)]`: keep the first occurrence of each
element, in order. -/
def jsSetDedup (l : List String) : List String :=
  l.foldl (fun acc x => if x ∈ acc then acc else acc ++ [x]) []

/-- The deduplicated serve-root list of `serveStaticSite`
(webcontainer.ts lines 669–673): primary root first, then the other
existing directories. -/
def uniqueDirs (fs : ContainerFS) : List String :=
  let staticRoot := findStaticRoot fs
  let orderedDirs := staticRoot :: (existingDirs fs).filter (fun d => d != staticRoot)
  jsSetDedup orderedDirs

theorem jsSetDedup_aux (l acc : List String) (h : (acc ++ l).Nodup) :
    l.foldl (fun acc x => if x ∈ acc then acc else acc ++ [x]) acc = acc ++ l := by
  induction l generalizing acc with
  | nil => simp
  | cons x t ih =>
    have hx : x ∉ acc := by
      simp only [List.nodup_append, List.nodup_cons] at h
      exact fun hmem => h.2.2 hmem (List.mem_cons_self x t)
    rw [List.foldl_cons, if_neg hx, ih (acc ++ [x]) (by simpa using h)]
    simp

theorem jsSetDedup_of_nodup (l : List String) (h : l.Nodup) : jsSetDedup l = l := by
  simpa using jsSetDedup_aux l [] (by simpa using h)

/-- C6: whenever `public` and `dist` both exist and contain an index
document while the current directory has none, the resolved serve-root
list is exactly `public` followed by the remaining existing candidate
directories in discovery order with `public` removed; the list is
duplicate-free, starts with the primary root `public`, and still
contains `.` and `dist`. -/
theorem static_root_resolution (fs : ContainerFS)
    (hpd : fs.dirExists "public" = true) (hdd : fs.dirExists "dist" = true)
    (hcd : fs.dirExists "." = true)
    (hpi : fs.fileExists "public/index.html" = true)
    (hdi : fs.fileExists "dist/index.html" = true)
    (hci : fs.fileExists "index.html" = false) :
    findStaticRoot fs = "public" ∧
    uniqueDirs fs = "public" :: (existingDirs fs).filter (fun d => d != "public") ∧
    (uniqueDirs fs).Nodup ∧
    "." ∈ uniqueDirs fs ∧ "dist" ∈ uniqueDirs fs := by
  have hroot : findStaticRoot fs = "public" := by
    have : candidateHasIndex fs "public" = true := by
      have e : ("public" ++ "/index.html" : String) = "public/index.html" := rfl
      simp only [candidateHasIndex, if_neg (by decide : ¬("public" = "."))]
      rw [e, hpd, hpi]; rfl
    simp only [findStaticRoot, staticRootCandidates, List.find?_cons, this]
    rfl
  have hfiltNodup : ((existingDirs fs).filter (fun d => d != "public")).Nodup := by
    have h1 : (existingDirs fs).Nodup :=
      List.Nodup.filter _ (by decide : (possibleDirs).Nodup)
    exact List.Nodup.filter _ h1
  have hnotmem : "public" ∉ (existingDirs fs).filter (fun d => d != "public") := by
    intro hmem
    have := List.of_mem_filter hmem
    simp at this
  have hlist : uniqueDirs fs =
      "public" :: (existingDirs fs).filter (fun d => d != "public") := by
    rw [uniqueDirs, hroot]
    exact jsSetDedup_of_nodup _ (List.nodup_cons.mpr ⟨hnotmem, hfiltNodup⟩)
  refine ⟨hroot, hlist, ?_, ?_, ?_⟩
  · rw [hlist]; exact List.nodup_cons.mpr ⟨hnotmem, hfiltNodup⟩
  · rw [hlist]
    refine List.mem_cons_of_mem _ (List.mem_filter.mpr ⟨?_, by decide⟩)
    simp only [existingDirs, possibleDirs, List.mem_filter]
    exact ⟨by decide, hcd⟩
  · rw [hlist]
    refine List.mem_cons_of_mem _ (List.mem_filter.mpr ⟨?_, by decide⟩)
    simp only [existingDirs, possibleDirs, List.mem_filter]
    exact ⟨by decide, hdd⟩

/-- Witness for `static_root_resolution` on the filesystem where
exactly `.`, `public` and `dist` exist and only `public` and `dist`
hold an index document. -/
theorem static_root_resolution_witness :
    findStaticRoot
        ⟨fun d => [".", "public", "dist"].contains d,
         fun f => ["public/index.html", "dist/index.html"].contains f⟩ = "public" ∧
    uniqueDirs
        ⟨fun d => [".", "public", "dist"].contains d,
         fun f => ["public/index.html", "dist/index.html"].contains f⟩ =
      ["public", ".", "dist"] := by
  have h := static_root_resolution
    ⟨fun d => [".", "public", "dist"].contains d,
     fun f => ["public/index.html", "dist/index.html"].contains f⟩
    (by decide) (by decide) (by decide) (by decide) (by decide) (by decide)
  exact ⟨h.1, by rw [h.2.1]; decide⟩

end WC

namespace PD

/-- `ProjectType` from projectDetection.ts. -/
inductive ProjectType where
  | nodejs
  | static
  | python
  | rust
  | go
  | other
deriving DecidableEq, Repr

/-- The fields of `ProjectInfo` the detection rules fill in
(projectDetection.ts lines 11–18; `warnings` and `nodeVersion` are
constant in `detectProjectType` and omitted). -/
structure ProjectInfo where
  type : ProjectType
  label : String
  canRun : Bool
  description : String
deriving DecidableEq, Repr

/-- `PROJECT_TYPE_INFO` (projectDetection.ts lines 20–51) combined with
the `type` field. -/
def projectTypeInfo : ProjectType → ProjectInfo
  | .nodejs => ⟨.nodejs, "Node.js", true, "Full execution with npm install and dev server"⟩
  | .static => ⟨.static, "Static Site", true, "Served via built-in static file server"⟩
  | .python => ⟨.python, "Python", false, "Code browsing only - Python runtime not supported"⟩
  | .rust => ⟨.rust, "Rust", false, "Code browsing only - Rust runtime not supported"⟩
  | .go => ⟨.go, "Go", false, "Code browsing only - Go runtime not supported"⟩
  | .other => ⟨.other, "Repository", false, "Code browsing only"⟩

/-- A repository entry as `detectProjectType` consumes it: only the
`path` field is inspected. -/
structure GitHubFile where
  path : String
deriving DecidableEq, Repr

/-- Whether the file list carries one of the Python manifest markers
(projectDetection.ts lines 116–121). -/
def hasPythonMarker (paths : List String) : Bool :=
  paths.contains "requirements.txt" || paths.contains "setup.py" ||
    paths.contains "pyproject.toml" || paths.contains "Pipfile"

/-- `detectProjectType` (projectDetection.ts lines 102–168): first
matching rule wins, manifest files before the HTML-extension
heuristic. -/
def detectProjectType (files : List GitHubFile) : ProjectInfo :=
  let filePaths := files.map fun f => f.path
  if filePaths.contains "package.json" then projectTypeInfo .nodejs
  else if hasPythonMarker filePaths then projectTypeInfo .python
  else if filePaths.contains "Cargo.toml" then projectTypeInfo .rust
  else if filePaths.contains "go.mod" then projectTypeInfo .go
  else if files.any (fun f => strHasSuffix f.path ".html") then projectTypeInfo .static
  else projectTypeInfo .other

/-- C8: classification applies manifest rules before the HTML
heuristic — any list containing `package.json` is `nodejs` with
`canRun = true` regardless of other files; a list with
`requirements.txt` and no `package.json` is `python` with
`canRun = false`; and a list containing a `.html` file is classified
`static` exactly when no manifest rule (package.json, Python markers,
Cargo.toml, go.mod) matches. -/
theorem detectProjectType_priority :
    (∀ files : List GitHubFile,
      (files.map fun f => f.path).contains "package.json" = true →
        (detectProjectType files).type = .nodejs ∧
        (detectProjectType files).canRun = true) ∧
    (∀ files : List GitHubFile,
      (files.map fun f => f.path).contains "requirements.txt" = true →
      (files.map fun f => f.path).contains "package.json" = false →
        (detectProjectType files).type = .python ∧
        (detectProjectType files).canRun = false) ∧
    (∀ files : List GitHubFile,
      files.any (fun f => strHasSuffix f.path ".html") = true →
        ((detectProjectType files).type = .static ↔
          (files.map fun f => f.path).contains "package.json" = false ∧
          hasPythonMarker (files.map fun f => f.path) = false ∧
          (files.map fun f => f.path).contains "Cargo.toml" = false ∧
          (files.map fun f => f.path).contains "go.mod" = false)) := by
  refine ⟨?_, ?_, ?_⟩
  · intro files h
    simp only [detectProjectType, h, if_true]
    exact ⟨rfl, rfl⟩
  · intro files hreq hpkg
    have hpy : hasPythonMarker (files.map fun f => f.path) = true := by
      simp only [hasPythonMarker, hreq, Bool.true_or]
    simp only [detectProjectType, hpkg, hpy, Bool.false_eq_true, if_false, if_true]
    exact ⟨rfl, rfl⟩
  · intro files hhtml
    constructor
    · intro hstatic
      by_cases h1 : (files.map fun f => f.path).contains "package.json" = true
      · simp only [detectProjectType, h1, if_true] at hstatic
        exact absurd hstatic (by decide)
      · by_cases h2 : hasPythonMarker (files.map fun f => f.path) = true
        · simp only [detectProjectType, h1, h2, if_true, if_false] at hstatic
          rw [Bool.not_eq_true] at h1
          simp only [h1, Bool.false_eq_true, if_false] at hstatic
          exact absurd hstatic (by decide)
        · by_cases h3 : (files.map fun f => f.path).contains "Cargo.toml" = true
          · rw [Bool.not_eq_true] at h1 h2
            simp only [detectProjectType, h1, h2, h3, Bool.false_eq_true,
              if_false, if_true] at hstatic
            exact absurd hstatic (by decide)
          · by_cases h4 : (files.map fun f => f.path).contains "go.mod" = true
            · rw [Bool.not_eq_true] at h1 h2 h3
              simp only [detectProjectType, h1, h2, h3, h4, Bool.false_eq_true,
                if_false, if_true] at hstatic
              exact absurd hstatic (by decide)
            · rw [Bool.not_eq_true] at h1 h2 h3 h4
              exact ⟨h1, h2, h3, h4⟩
    · rintro ⟨h1, h2, h3, h4⟩
      simp only [detectProjectType, h1, h2, h3, h4, hhtml, Bool.false_eq_true,
        if_false, if_true]
      rfl

/-- Witness for `detectProjectType_priority`: a project with both
`package.json` and an `.html` file is `nodejs` and runnable; a project
with only `requirements.txt` is `python` and not runnable; a project
with only `index.html` is `static`. -/
theorem detectProjectType_priority_witness :
    ((detectProjectType [⟨"package.json"⟩, ⟨"index.html"⟩]).type = .nodejs ∧
      (detectProjectType [⟨"package.json"⟩, ⟨"index.html"⟩]).canRun = true) ∧
    ((detectProjectType [⟨"requirements.txt"⟩]).type = .python ∧
      (detectProjectType [⟨"requirements.txt"⟩]).canRun = false) ∧
    (detectProjectType [⟨"index.html"⟩]).type = .static :=
  ⟨detectProjectType_priority.1 [⟨"package.json"⟩, ⟨"index.html"⟩] (by decide),
   detectProjectType_priority.2.1 [⟨"requirements.txt"⟩] (by decide) (by decide),
   (detectProjectType_priority.2.2 [⟨"index.html"⟩] (by decide)).mpr
     ⟨by decide, by decide, by decide, by decide⟩⟩

end PD

namespace Part1

/-- The module state of the src/unnamed/part_001 orchestrator variant:
`webcontainerInstance`, `bootPromise`, whether `executionTimer` is set,
and the container status last delivered to the presentation layer
through `onStatusChange` (initially `idle`).  The timer callback and
`teardownWebContainer` invoke no status callback, so `containerStatus`
can change only where the code calls `onStatusChange`. -/
structure P1State where
  webcontainerInstance : Option Nat
  bootPromise : Option Nat
  executionTimer : Bool
  containerStatus : ContainerStatus
deriving DecidableEq, Repr

/-- `clearExecutionTimer` (part_001 lines 653–658). -/
def clearExecutionTimer (st : P1State) : P1State :=
  { st with executionTimer := false }

/-- `teardownWebContainer` (part_001 lines 757–764): always clear the
execution timer; tear down and clear instance and boot promise only
when an instance exists. -/
def teardownWebContainer (st : P1State) : P1State :=
  let st := clearExecutionTimer st
  match st.webcontainerInstance with
  | some _ => { st with webcontainerInstance := none, bootPromise := none }
  | none => st

/-- `startExecutionTimer` (part_001 lines 661–667): replace any pending
timer with a fresh 10-minute deadline. -/
def startExecutionTimer (st : P1State) : P1State :=
  { clearExecutionTimer st with executionTimer := true }

/-- Expiry of the 10-minute deadline: the scheduled callback emits the
notice and calls `teardownWebContainer` — and nothing else. -/
def fireExecutionTimer (st : P1State) : P1State × List Event :=
  (teardownWebContainer st,
   [Event.onOutput "⚠ Execution time limit reached (10 minutes). Terminating..."])

/-- Counterexample to C3 as stated: when the timer expires during a run
(live instance, status `running`), the handle is released but the
container status does not become `idle` — the timer callback and
`teardownWebContainer` invoke no status callback, so the observed
status stays `running`. -/
theorem execution_timer_no_idle_status :
    ¬ ((fireExecutionTimer ⟨some 0, some 0, true, .running⟩).1.containerStatus =
          ContainerStatus.idle ∧
       (fireExecutionTimer ⟨some 0, some 0, true, .running⟩).1.webcontainerInstance =
          none) := by
  decide

/-- C3 (amended): once the 10-minute deadline fires on a state with a
live instance, the sandbox handle is fully released — instance, boot
promise, and timer all cleared — even if the run never reached `ready`;
the container status is left exactly as it was (no status callback runs,
so it does not become `idle`). -/
theorem execution_timer_forces_teardown (st : P1State)
    (h : st.webcontainerInstance.isSome = true) :
    (fireExecutionTimer st).1.webcontainerInstance = none ∧
    (fireExecutionTimer st).1.bootPromise = none ∧
    (fireExecutionTimer st).1.executionTimer = false ∧
    (fireExecutionTimer st).1.containerStatus = st.containerStatus := by
  obtain ⟨v, hv⟩ := Option.isSome_iff_exists.mp h
  simp [fireExecutionTimer, teardownWebContainer, clearExecutionTimer, hv]

/-- Witness for `execution_timer_forces_teardown` at a state that never
reached `ready`: instance and boot promise set, timer armed, status
`running`. -/
theorem execution_timer_forces_teardown_witness :
    ((⟨some 3, some 3, true, .running⟩ : P1State).webcontainerInstance.isSome = true) ∧
    (fireExecutionTimer ⟨some 3, some 3, true, .running⟩).1.webcontainerInstance = none ∧
    (fireExecutionTimer ⟨some 3, some 3, true, .running⟩).1.bootPromise = none ∧
    (fireExecutionTimer ⟨some 3, some 3, true, .running⟩).1.executionTimer = false ∧
    (fireExecutionTimer ⟨some 3, some 3, true, .running⟩).1.containerStatus =
      ContainerStatus.running :=
  ⟨by decide,
   (execution_timer_forces_teardown ⟨some 3, some 3, true, .running⟩ (by decide)).1,
   (execution_timer_forces_teardown ⟨some 3, some 3, true, .running⟩ (by decide)).2.1,
   (execution_timer_forces_teardown ⟨some 3, some 3, true, .running⟩ (by decide)).2.2.1,
   (execution_timer_forces_teardown ⟨some 3, some 3, true, .running⟩ (by decide)).2.2.2⟩

end Part1

namespace Railway

/-- `FrameworkType` of the framework-aware variant
(railway-deploy/index.ts line 571). -/
inductive FrameworkType where
  | vite
  | next
  | cra
  | angular
  | vueCli
  | nuxt
  | remix
  | astro
  | express
  | unknown
deriving DecidableEq, Repr

/-- The members of `PackageJsonInfo` that `findDevScript` and
`startDevServer` consume; `readPackageJson` defaults each to the empty
mapping. -/
structure PackageJsonInfo where
  scripts : List (String × String)
  dependencies : List (String × String)
  devDependencies : List (String × String)
deriving DecidableEq, Repr

/-- Lookup in `allDeps = { ...dependencies, ...devDependencies }`: a
key present in `devDependencies` shadows `dependencies`. -/
def allDepsLookup (p : PackageJsonInfo) (name : String) : Option String :=
  match p.devDependencies.lookup name with
  | some v => some v
  | none => p.dependencies.lookup name

/-- Truthiness of `allDeps[name]`. -/
def depTruthy (p : PackageJsonInfo) (name : String) : Bool :=
  truthy (allDepsLookup p name)

/-- The framework-detection chain of `readPackageJson`
(railway-deploy/index.ts lines 710–730), in order. -/
def detectFramework (p : PackageJsonInfo) : FrameworkType :=
  if depTruthy p "vite" || depTruthy p "@vitejs/plugin-react" || depTruthy p "@vitejs/plugin-vue" then .vite
  else if depTruthy p "next" then .next
  else if depTruthy p "react-scripts" then .cra
  else if depTruthy p "@angular/core" || depTruthy p "@angular/cli" then .angular
  else if depTruthy p "@vue/cli-service" then .vueCli
  else if depTruthy p "nuxt" || depTruthy p "nuxt3" then .nuxt
  else if depTruthy p "@remix-run/react" then .remix
  else if depTruthy p "astro" then .astro
  else if depTruthy p "express" || depTruthy p "koa" || depTruthy p "fastify" then .express
  else .unknown

/-- `frameworkScriptPriority` (railway-deploy/index.ts lines 746–757). -/
def frameworkScriptPriority : FrameworkType → List String
  | .vite => ["dev", "start", "serve", "preview"]
  | .next => ["dev", "start"]
  | .cra => ["start"]
  | .angular => ["start", "serve"]
  | .vueCli => ["serve", "dev", "start"]
  | .nuxt => ["dev", "start"]
  | .remix => ["dev", "start"]
  | .astro => ["dev", "start", "preview"]
  | .express => ["start", "dev", "serve", "start:dev"]
  | .unknown => ["dev", "start", "serve", "develop", "watch", "start:dev", "preview"]

/-- `['vite', 'astro'].includes(framework)`
(railway-deploy/index.ts line 760). -/
def needsHostFlagFor : FrameworkType → Bool
  | .vite => true
  | .astro => true
  | _ => false

/-- Display name of a framework, as interpolated into the debug
output. -/
def frameworkName : FrameworkType → String
  | .vite => "vite"
  | .next => "next"
  | .cra => "cra"
  | .angular => "angular"
  | .vueCli => "vue-cli"
  | .nuxt => "nuxt"
  | .remix => "remix"
  | .astro => "astro"
  | .express => "express"
  | .unknown => "unknown"

/-- The selection `findDevScript` returns
(railway-deploy/index.ts line 739). -/
structure DevScriptInfo where
  script : String
  needsHostFlag : Bool
  buildFirst : Bool
deriving DecidableEq, Repr

/-- Truthiness of `scripts[name]`. -/
def scriptTruthy (scripts : List (String × String)) (name : String) : Bool :=
  truthy (scripts.lookup name)

/-- The last-resort scan for a runtime/process-manager invocation in a
script command string (railway-deploy/index.ts lines 782–787). -/
def containsNodeInvocation (cmd : String) : Bool :=
  strContains cmd "node" || strContains cmd "nodemon" || strContains cmd "ts-node"

/-- `findDevScript` (railway-deploy/index.ts lines 739–790) as a
function of the parsed manifest: walk the framework's priority list,
marking `buildFirst` when the chosen script is `preview` and a `build`
script exists; fall back to the build+preview combo, then to a script
whose command mentions a node-ish binary. -/
def findDevScript (pkg : Option PackageJsonInfo) : Option DevScriptInfo :=
  match pkg with
  | none => none
  | some p =>
    let framework := detectFramework p
    let needsHostFlag := needsHostFlagFor framework
    match (frameworkScriptPriority framework).find? (scriptTruthy p.scripts) with
    | some name =>
      some ⟨name, needsHostFlag, name == "preview" && scriptTruthy p.scripts "build"⟩
    | none =>
      if scriptTruthy p.scripts "build" && scriptTruthy p.scripts "preview" then
        some ⟨"preview", needsHostFlag, true⟩
      else
        match p.scripts.find? (fun kv => containsNodeInvocation kv.2) with
        | some kv => some ⟨kv.1, false, false⟩
        | none => none

/-- The run phase of the framework-aware `startDevServer`
(railway-deploy/index.ts lines 883–905): status `running`, then spawn
`npm run SCRIPT`, passing `-- --host 0.0.0.0` when the framework needs
the host flag.  (The spawn also sets HOST/HOSTNAME env vars, not
modelled in the argument list.) -/
def runPhase (info : DevScriptInfo) : List Event :=
  Event.onStatusChange .running ::
  if info.needsHostFlag then
    [Event.onOutput ("➜ Running npm run " ++ info.script ++ " -- --host 0.0.0.0"),
     Event.onOutput "  (Added --host flag for WebContainer compatibility)",
     Event.spawn "npm" ["run", info.script, "--", "--host", "0.0.0.0"]]
  else
    [Event.onOutput ("➜ Running npm run " ++ info.script ++ "..."),
     Event.spawn "npm" ["run", info.script]]

/-- The synchronous skeleton of the framework-aware `startDevServer`
(railway-deploy/index.ts lines 792–905): debug info, install, optional
build-before-run, then the run phase.  Parameterised by the parsed
manifest and the exit codes of the install and build commands. -/
def startDevServer (pkg : Option PackageJsonInfo)
    (installExitCode buildExitCode : Nat) : List Event :=
  Event.spawn "cat" ["package.json"] ::
  (match pkg with
   | some p =>
     [Event.onOutput ("  Framework detected: " ++ frameworkName (detectFramework p)),
      Event.onOutput ("  Available scripts: " ++
        String.intercalate ", " (p.scripts.map Prod.fst))]
   | none => []) ++
  Event.onStatusChange .installing ::
  Event.onOutput "➜ Running npm install..." ::
  Event.spawn "npm" ["install"] ::
  if installExitCode != 0 then
    [Event.onError "npm install failed. Check the terminal output for details.",
     Event.onStatusChange .error]
  else
    Event.onOutput "✓ Dependencies installed successfully!" ::
    Event.spawn "cat" ["package.json"] ::
    match findDevScript pkg with
    | none =>
      [Event.onError "No dev/start script found in package.json. The project needs a 'dev', 'start', or 'serve' script.",
       Event.onStatusChange .error]
    | some info =>
      if info.buildFirst then
        Event.onOutput "➜ Building project first..." ::
        Event.spawn "npm" ["run", "build"] ::
        if buildExitCode != 0 then
          [Event.onError "Build failed. Check the terminal output for details.",
           Event.onStatusChange .error]
        else
          Event.onOutput "✓ Build completed!" :: runPhase info
      else runPhase info

/-- C5: for a manifest whose scripts hold `build` and `preview` but none
of the vite-style framework's earlier-preferred names (`dev`, `start`,
`serve`), `findDevScript` selects `preview` with `buildFirst = true`
(and the vite host flag), and the workflow spawns `npm run build`
strictly before `npm run preview`. -/
theorem preview_selects_build_first (scripts deps devDeps : List (String × String))
    (hvite : detectFramework ⟨scripts, deps, devDeps⟩ = .vite)
    (hdev : scriptTruthy scripts "dev" = false)
    (hstart : scriptTruthy scripts "start" = false)
    (hserve : scriptTruthy scripts "serve" = false)
    (hprev : scriptTruthy scripts "preview" = true)
    (hbuild : scriptTruthy scripts "build" = true) :
    findDevScript (some ⟨scripts, deps, devDeps⟩) = some ⟨"preview", true, true⟩ ∧
    ∃ i j, i < j ∧
      (startDevServer (some ⟨scripts, deps, devDeps⟩) 0 0).get? i =
        some (Event.spawn "npm" ["run", "build"]) ∧
      (startDevServer (some ⟨scripts, deps, devDeps⟩) 0 0).get? j =
        some (Event.spawn "npm" ["run", "preview", "--", "--host", "0.0.0.0"]) := by
  have hfind : findDevScript (some ⟨scripts, deps, devDeps⟩) =
      some ⟨"preview", true, true⟩ := by
    simp only [findDevScript, hvite, frameworkScriptPriority, needsHostFlagFor,
      List.find?, hdev, hstart, hserve, hprev, hbuild]
    rfl
  refine ⟨hfind, 9, 14, by decide, ?_, ?_⟩ <;>
    simp [startDevServer, hfind, runPhase, hvite]

/-- Witness for `preview_selects_build_first` on the manifest
`scripts = ⟨build, preview⟩` with dependency `vite`. -/
theorem preview_selects_build_first_witness :
    findDevScript
        (some ⟨[("build", "vite build"), ("preview", "vite preview")],
          [("vite", "^5.0.0")], []⟩) =
      some ⟨"preview", true, true⟩ ∧
    ∃ i j, i < j ∧
      (startDevServer
          (some ⟨[("build", "vite build"), ("preview", "vite preview")],
            [("vite", "^5.0.0")], []⟩) 0 0).get? i =
        some (Event.spawn "npm" ["run", "build"]) ∧
      (startDevServer
          (some ⟨[("build", "vite build"), ("preview", "vite preview")],
            [("vite", "^5.0.0")], []⟩) 0 0).get? j =
        some (Event.spawn "npm" ["run", "preview", "--", "--host", "0.0.0.0"]) :=
  preview_selects_build_first
    [("build", "vite build"), ("preview", "vite preview")]
    [("vite", "^5.0.0")] []
    (by decide) (by decide) (by decide) (by decide) (by decide) (by decide)

end Railway
